import Mathlib

/-!
Verification development for the shared-mempool coordinator tasks
(`mempool/src/shared_mempool/tasks.rs`).

The file shallowly embeds the coordinator task functions.  External
collaborators (the core pool, the peer manager, network senders, the
validator capability and the account-sequence lookup) are passed in as
explicit data: pure functions where the source consumes a capability, and
explicit state where the source mutates shared state under a lock.
-/

namespace SharedMempool

/-- Mempool status codes (`MempoolStatusCode` in `libra_types::mempool_status`). -/
inductive MempoolStatusCode where
  | Accepted
  | InvalidSeqNumber
  | InvalidUpdate
  | MempoolIsFull
  | TooManyTransactions
  | VmError
  | UnknownStatus
  deriving DecidableEq, Repr

/-- `MempoolStatus`: the code together with an (ignored here) message. -/
structure MempoolStatus where
  code : MempoolStatusCode
  deriving DecidableEq, Repr

/-- `MempoolStatus::new(code)`. -/
def MempoolStatus.new (code : MempoolStatusCode) : MempoolStatus := ⟨code⟩

/-- Discarded VM statuses that `tasks.rs` mentions, plus an opaque remainder
for statuses produced by the validator capability. -/
inductive DiscardedVMStatus where
  | SEQUENCE_NUMBER_TOO_OLD
  | RESOURCE_DOES_NOT_EXIST
  | other (code : Nat)
  deriving DecidableEq, Repr

/-- A signed transaction, opaque to the coordinator except for the accessors
`sender()`, `sequence_number()` and `max_gas_amount()` used in `tasks.rs`. -/
structure SignedTransaction where
  sender : Nat
  sequence_number : Nat
  max_gas_amount : Nat
  deriving DecidableEq, Repr

/-- `SubmissionStatus = (MempoolStatus, Option<DiscardedVMStatus>)`. -/
abbrev SubmissionStatus := MempoolStatus × Option DiscardedVMStatus

/-- `SubmissionStatusBundle = (SignedTransaction, SubmissionStatus)`. -/
abbrev SubmissionStatusBundle := SignedTransaction × SubmissionStatus

/-- `TimelineState` of an added transaction. -/
inductive TimelineState where
  | NotReady
  | Ready
  deriving DecidableEq, Repr

/-- Governance role attached by the validator (opaque capability class). -/
structure GovernanceRole where
  role : Nat
  deriving DecidableEq, Repr

/-- `BatchId(start, end)` — pair of timeline ids identifying a broadcast. -/
structure BatchId where
  start_id : Nat
  end_id : Nat
  deriving DecidableEq, Repr

/-- The mempool wire messages built by `tasks.rs`. -/
inductive MempoolSyncMsg where
  | BroadcastTransactionsRequest
      (request_id : List Nat) (transactions : List SignedTransaction)
  | BroadcastTransactionsResponse
      (request_id : List Nat) (retry_txns : List Nat) (backoff : Bool)
  deriving DecidableEq, Repr

/-- `is_txn_retryable`: the mempool status code is `TooManyTransactions`
or `MempoolIsFull`. -/
def is_txn_retryable (result : SubmissionStatus) : Bool :=
  let mempool_status := result.1.code
  mempool_status = MempoolStatusCode.TooManyTransactions
    || mempool_status = MempoolStatusCode.MempoolIsFull

/-- The enumerated fold inside `gen_ack_response`: walks the results carrying
the running index and the `backoff` accumulator, collecting indices of
retryable results. -/
def gen_ack_loop : Nat → Bool → List SubmissionStatusBundle → List Nat × Bool
  | _, backoff, [] => ([], backoff)
  | idx, backoff, result :: rest =>
    let backoff2 := backoff || (result.2.1.code = MempoolStatusCode.MempoolIsFull)
    let tail := gen_ack_loop (idx + 1) backoff2 rest
    (if is_txn_retryable result.2 then idx :: tail.1 else tail.1, tail.2)

/-- `gen_ack_response(request_id, results)`: builds the
`BroadcastTransactionsResponse` ACK, with `retry_txns` the indices of
retryable results and `backoff` set when some result is `MempoolIsFull`. -/
def gen_ack_response (request_id : List Nat) (results : List SubmissionStatusBundle) :
    MempoolSyncMsg :=
  let (retry_txns, backoff) := gen_ack_loop 0 false results
  MempoolSyncMsg.BroadcastTransactionsResponse request_id retry_txns backoff

/-- Projection: the `retry_txns` field of an ACK (empty for a request). -/
def MempoolSyncMsg.retry_txns : MempoolSyncMsg → List Nat
  | .BroadcastTransactionsRequest _ _ => []
  | .BroadcastTransactionsResponse _ r _ => r

/-- Projection: the `backoff` field of an ACK (false for a request). -/
def MempoolSyncMsg.backoff : MempoolSyncMsg → Bool
  | .BroadcastTransactionsRequest _ _ => false
  | .BroadcastTransactionsResponse _ _ b => b

/-- Projection: the `transactions` field of a broadcast request. -/
def MempoolSyncMsg.transactions : MempoolSyncMsg → List SignedTransaction
  | .BroadcastTransactionsRequest _ t => t
  | .BroadcastTransactionsResponse _ _ _ => []

/-- Result of a successful `validate_transaction` call: `status()` is `None`
on acceptance, `score()` the ranking score, `governance_role()` the role. -/
structure VMValidatorResult where
  status : Option DiscardedVMStatus
  score : Nat
  governance_role : GovernanceRole
  deriving DecidableEq, Repr

/-- The collaborators consumed by `process_incoming_transactions`, over an
abstract pool state `M`:
`get_account_sequence_number` (the storage read, `none` embedding `Err`),
`validate_transaction` (the validator capability under its read lock, `none`
embedding `Err`), and `add_txn` on the core pool, taking the transaction,
`gas_amount`, `ranking_score`, `sequence_number`, timeline state and
governance role, as at the call site in the source. -/
structure IngressEnv (M : Type) where
  get_account_sequence_number : Nat → Option Nat
  validate_transaction : SignedTransaction → Option VMValidatorResult
  add_txn : M → SignedTransaction → Nat → Nat → Nat → TimelineState →
    GovernanceRole → MempoolStatus × M

/-- The `filter_map` pass of `process_incoming_transactions`: pushes a
`VmError` status for each transaction whose sequence lookup fails
(`RESOURCE_DOES_NOT_EXIST`) or whose sequence number is below the committed
one (`SEQUENCE_NUMBER_TOO_OLD`), and keeps the remaining transactions paired
with their committed sequence number.  Statuses are pushed in input order,
ahead of any status pushed by the later insertion loop. -/
def sequence_prefilter (db : Nat → Option Nat) :
    List SignedTransaction →
      List SubmissionStatusBundle × List (SignedTransaction × Nat)
  | [] => ([], [])
  | t :: rest =>
    let tail := sequence_prefilter db rest
    match db t.sender with
    | some sequence_number =>
      if sequence_number ≤ t.sequence_number then
        (tail.1, (t, sequence_number) :: tail.2)
      else
        ((t, (MempoolStatus.new .VmError,
            some .SEQUENCE_NUMBER_TOO_OLD)) :: tail.1, tail.2)
    | none =>
      ((t, (MempoolStatus.new .VmError,
          some .RESOURCE_DOES_NOT_EXIST)) :: tail.1, tail.2)

/-- The validation pass and the insertion loop of
`process_incoming_transactions`, fused: the source first maps
`validate_transaction` over the kept transactions and then walks the results,
which is extensionally the same as validating each transaction as the loop
reaches it.  A validator `Err` (here `none`) skips the transaction entirely:
the `if let Ok(validation_result)` has no `else` arm, so no status is pushed
for it.  A validation status `Some(vs)` yields a `VmError` status; `None`
inserts into the pool and records the returned `MempoolStatus`. -/
def validate_and_insert {M : Type} (env : IngressEnv M) (timeline_state : TimelineState) :
    M → List (SignedTransaction × Nat) → List SubmissionStatusBundle × M
  | m, [] => ([], m)
  | m, (transaction, sequence_number) :: rest =>
    match env.validate_transaction transaction with
    | some validation_result =>
      match validation_result.status with
      | none =>
        let ins := env.add_txn m transaction transaction.max_gas_amount
          validation_result.score sequence_number timeline_state
          validation_result.governance_role
        let tail := validate_and_insert env timeline_state ins.2 rest
        ((transaction, (ins.1, none)) :: tail.1, tail.2)
      | some validation_status =>
        let tail := validate_and_insert env timeline_state m rest
        ((transaction, (MempoolStatus.new .VmError,
            some validation_status)) :: tail.1, tail.2)
    | none => validate_and_insert env timeline_state m rest

/-- `process_incoming_transactions(smp, transactions, timeline_state)`:
sequence prefilter, validation, insertion under the pool lock; returns the
assembled status vector (prefilter statuses first, then the insertion loop's,
as pushed into the single `statuses` vector in the source) and the new pool. -/
def process_incoming_transactions {M : Type} (env : IngressEnv M) (m : M)
    (transactions : List SignedTransaction) (timeline_state : TimelineState) :
    List SubmissionStatusBundle × M :=
  let pre := sequence_prefilter env.get_account_sequence_number transactions
  let ins := validate_and_insert env timeline_state m pre.2
  (pre.1 ++ ins.1, ins.2)

/-- `process_transaction_broadcast`: processes the incoming batch and builds
the ACK sent back to the broadcaster (the network send of the ACK and the
subscriber notification carry no further data). -/
def process_transaction_broadcast {M : Type} (env : IngressEnv M) (m : M)
    (transactions : List SignedTransaction) (request_id : List Nat)
    (timeline_state : TimelineState) : MempoolSyncMsg × M :=
  let results := process_incoming_transactions env m transactions timeline_state
  (gen_ack_response request_id results.1, results.2)

/-- A committed (or rejected, or excluded) transaction reference: only the
`sender` and `sequence_number` fields are read by the handlers. -/
structure CommittedTransaction where
  sender : Nat
  sequence_number : Nat
  deriving DecidableEq, Repr

/-- `CommitResponse { msg }` sent back on a state-sync commit. -/
structure CommitResponse where
  msg : String
  deriving DecidableEq, Repr

/-- The core-pool operations called by the consensus and state-sync handlers,
over an abstract pool state `P`.  `get_block` takes the block size and the
exclusion set as a membership predicate on `(sender, sequence)` pointers,
matching the `HashSet<TxnPointer>` built at the call site. -/
structure CoreMempoolOps (P : Type) where
  remove_transaction : P → Nat → Nat → Bool → P
  gc_by_expiration_time : P → Nat → P
  get_block : P → Nat → (Nat × Nat → Bool) → List SignedTransaction

/-- `commit_txns(mempool, transactions, block_timestamp_usecs, is_rejected)`:
under the pool lock, remove each transaction, then GC by expiration time when
the block timestamp is positive. -/
def commit_txns {P : Type} (ops : CoreMempoolOps P) (pool : P)
    (transactions : List CommittedTransaction) (block_timestamp_usecs : Nat)
    ( is_rejected : Bool) : P :=
  let pool2 := transactions.foldl
    (fun p transaction =>
      ops.remove_transaction p transaction.sender transaction.sequence_number
        is_rejected)
    pool
  if 0 < block_timestamp_usecs then
    ops.gc_by_expiration_time pool2 block_timestamp_usecs
  else pool2

/-- `process_state_sync_request(mempool, req)`: commit the transactions with
`is_rejected = false`, then reply `CommitResponse { msg: "".to_string() }`. -/
def process_state_sync_request {P : Type} (ops : CoreMempoolOps P) (pool : P)
    (transactions : List CommittedTransaction) (block_timestamp_usecs : Nat) :
    P × CommitResponse :=
  (commit_txns ops pool transactions block_timestamp_usecs false, ⟨""⟩)

/-- `ConsensusRequest`: a block pull (with the exclusion list, of which only
`sender` and `sequence_number` are read) or a rejection notification. -/
inductive ConsensusRequest where
  | GetBlockRequest (max_block_size : Nat) (transactions : List CommittedTransaction)
  | RejectNotification (transactions : List CommittedTransaction)
  deriving DecidableEq, Repr

/-- `ConsensusResponse`: the pulled block or the commit acknowledgement. -/
inductive ConsensusResponse where
  | GetBlockResponse (txns : List SignedTransaction)
  | CommitResponse
  deriving DecidableEq, Repr

/-- `process_consensus_request(mempool, req)`: for a block pull, under one
pool-lock section GC by the current time then pull a block of size
`max(max_block_size, 1)` excluding the `(sender, sequence_number)` pointers
of the request; for a rejection, commit with `is_rejected = true` and
timestamp 0. Returns the pool left behind and the reply. -/
def process_consensus_request {P : Type} (ops : CoreMempoolOps P) (pool : P)
    (curr_time : Nat) : ConsensusRequest → P × ConsensusResponse
  | .GetBlockRequest max_block_size transactions =>
    let exclude_transactions : Nat × Nat → Bool := fun ptr =>
      transactions.any (fun txn => ptr = (txn.sender, txn.sequence_number))
    let pool2 := ops.gc_by_expiration_time pool curr_time
    let block_size := Nat.max max_block_size 1
    let txns := ops.get_block pool2 block_size exclude_transactions
    (pool2, ConsensusResponse.GetBlockResponse txns)
  | .RejectNotification transactions =>
    (commit_txns ops pool transactions 0 true, ConsensusResponse.CommitResponse)

/-- Per-peer broadcast bookkeeping read by `broadcast_single_peer`:
`total_retry_txns` in its iteration order, and the backoff flag. -/
structure BroadcastInfo where
  total_retry_txns : List Nat
  backoff_mode : Bool
  deriving DecidableEq, Repr

/-- Peer state as read from the peer manager. -/
structure PeerState where
  is_alive : Bool
  timeline_id : Nat
  broadcast_info : BroadcastInfo
  deriving DecidableEq, Repr

/-- The timeline reads `broadcast_single_peer` performs on the core pool,
over an abstract pool state `P`: selective re-read of retry ids, and a range
read returning the entries together with the new watermark. -/
structure TimelineOps (P : Type) where
  filter_read_timeline : P → List Nat → List (Nat × SignedTransaction)
  read_timeline : P → Nat → Nat → List (Nat × SignedTransaction) × Nat

/-- The inputs `broadcast_single_peer` draws from the shared-mempool handle
for one peer: the peer-manager picks and state, the pool contents, the
configured batch size, and whether the network `send_to` succeeds. -/
structure BroadcastEnv (P : Type) where
  is_picked_peer : Bool
  peer_state : PeerState
  pool : P
  shared_mempool_batch_size : Nat
  send_ok : Bool

/-- The arguments of the `update_peer_broadcast` call recording a successful
send: it stores the batch in `sent_batches` and advances the peer's
`timeline_id` to `new_timeline_id`. -/
structure UpdatePeerBroadcastArgs where
  batch_id : BatchId
  batch_timeline_ids : List Nat
  new_timeline_id : Nat
  earliest_timeline_id : Nat
  deriving DecidableEq, Repr

/-- Observable side effects of one `broadcast_single_peer` invocation:
the request handed to `send_to` (if any), the `update_peer_broadcast` call
recording it on success (the only peer-state mutation), and the
`Broadcast` subscriber notification. -/
structure BroadcastEffects where
  sent_request : Option MempoolSyncMsg
  recorded_broadcast : Option UpdatePeerBroadcastArgs
  notified_broadcast : Bool
  deriving DecidableEq, Repr

/-- No send, no state update, no notification. -/
def noBroadcastEffects : BroadcastEffects := ⟨none, none, false⟩

/-- Little-endian byte serialization of a `u64`, as canonical LCS emits it. -/
def lcs_to_bytes_u64 (n : Nat) : List Nat :=
  (List.range 8).map (fun i => n / 256 ^ i % 256)

/-- `lcs::to_bytes(&batch_id)`: canonical serialization of the `(u64, u64)`
pair, which always succeeds (the source's `Err` arm is dead for this type). -/
def serialize_batch_id (b : BatchId) : List Nat :=
  lcs_to_bytes_u64 b.start_id ++ lcs_to_bytes_u64 b.end_id

/-- The retry read of `broadcast_single_peer`: the peer's flagged retry ids
re-read through `filter_read_timeline`, placed first in the batch. -/
def bsp_retry_txns {P : Type} (ops : TimelineOps P) (env : BroadcastEnv P) :
    List (Nat × SignedTransaction) :=
  ops.filter_read_timeline env.pool env.peer_state.broadcast_info.total_retry_txns

/-- The padding read of `broadcast_single_peer`: a fresh
`read_timeline(timeline_id, batch_size − retry.len())` performed only when
the retry transactions number fewer than the batch size, otherwise no fresh
transactions and an unchanged watermark. -/
def bsp_padding {P : Type} (ops : TimelineOps P) (env : BroadcastEnv P) :
    List (Nat × SignedTransaction) × Nat :=
  let retry_txns := bsp_retry_txns ops env
  if retry_txns.length < env.shared_mempool_batch_size then
    ops.read_timeline env.pool env.peer_state.timeline_id
      (env.shared_mempool_batch_size - retry_txns.length)
  else ([], env.peer_state.timeline_id)

/-- `broadcast_single_peer(peer, backoff, smp)`: returns the next-broadcast
backoff flag together with the effects performed.  `Except.error` embeds the
`expect("empty timeline")` panic on the earliest-timeline read.  Mirrors the
source's control flow: not picked → `false` with no effects; not alive →
stored backoff flag, no effects; a non-backoff dispatch against a
backoff-mode peer → drop; otherwise assemble the batch from retry ids plus a
fresh timeline read, return early if it is empty, send, and record the
broadcast only when the send succeeded. -/
def broadcast_single_peer {P : Type} (ops : TimelineOps P) (env : BroadcastEnv P)
    (backoff : Bool) : Except String (Bool × BroadcastEffects) :=
  if env.is_picked_peer then
    let state := env.peer_state
    let next_backoff := state.broadcast_info.backoff_mode
    if state.is_alive then
      let timeline_id := state.timeline_id
      if !backoff && next_backoff then
        Except.ok (next_backoff, noBroadcastEffects)
      else
        let retry_txns := bsp_retry_txns ops env
        let padded := bsp_padding ops env
        let new_txns := padded.1
        let new_timeline_id := padded.2
        if new_txns.isEmpty && retry_txns.isEmpty then
          Except.ok (next_backoff, noBroadcastEffects)
        else
          match (ops.read_timeline env.pool 0 1).1.head? with
          | none => Except.error "empty timeline"
          | some earliest =>
            let earliest_timeline_id := earliest.1
            let all_txns := (retry_txns ++ new_txns).take env.shared_mempool_batch_size
            let batch_timeline_ids := all_txns.map (fun e => e.1)
            let batch_txns := all_txns.map (fun e => e.2)
            let batch_id : BatchId := ⟨timeline_id, new_timeline_id⟩
            let request_id := serialize_batch_id batch_id
            let sent := MempoolSyncMsg.BroadcastTransactionsRequest request_id batch_txns
            if env.send_ok then
              Except.ok (next_backoff,
                ⟨some sent,
                 some ⟨batch_id, batch_timeline_ids, new_timeline_id, earliest_timeline_id⟩,
                 true⟩)
            else
              Except.ok (next_backoff, ⟨some sent, none, false⟩)
    else
      Except.ok (next_backoff, noBroadcastEffects)
  else
    Except.ok (false, noBroadcastEffects)

/-- The broadcast the scheduler pushes back onto the pending set: fire
deadline, peer, and whether it is dispatched in backoff mode. -/
structure ScheduledBroadcast where
  deadline : Nat
  peer : Nat
  backoff : Bool
  deriving DecidableEq, Repr

/-- The two broadcast cadences from the mempool config. -/
structure BroadcastConfig where
  shared_mempool_backoff_interval_ms : Nat
  shared_mempool_tick_interval_ms : Nat
  deriving DecidableEq, Repr

/-- `execute_broadcast(peer, backoff, smp, scheduled_broadcasts, executor)`:
attempt the broadcast, then push exactly one new `ScheduledBroadcast` for the
same peer, due after the backoff interval when the attempt returned `true`
and after the tick interval otherwise.  An `Except.error` from the attempt
(a panic in the source) propagates: nothing is scheduled. -/
def execute_broadcast {P : Type} (ops : TimelineOps P) (cfg : BroadcastConfig)
    (peer : Nat) (now : Nat) (env : BroadcastEnv P) (backoff : Bool) :
    Except String (BroadcastEffects × ScheduledBroadcast) :=
  match broadcast_single_peer ops env backoff with
  | Except.error e => Except.error e
  | Except.ok res =>
    let next_broadcast_backoff := res.1
    let interval_ms :=
      if next_broadcast_backoff then cfg.shared_mempool_backoff_interval_ms
      else cfg.shared_mempool_tick_interval_ms
    Except.ok (res.2, ⟨now + interval_ms, peer, next_broadcast_backoff⟩)

/-- Modelled from the spec: the core pool's timeline index (the `CoreMempool`
implementation is not under `src/`; only its callers in `tasks.rs` are).
Per §3/§4.2 the timeline is an ordered log of `(timeline_id, Txn)` entries
with ids assigned by a monotonic counter; live entries are kept, removed ones
leave no entry. -/
structure CoreMempool where
  timeline : List (Nat × SignedTransaction)
  deriving DecidableEq, Repr

/-- Modelled from the spec: `read_timeline(after_id, max)` returns up to
`max` entries with `timeline_id > after_id` in timeline order, plus the
largest timeline id seen (or `after_id` if none). -/
def CoreMempool.read_timeline (pool : CoreMempool) (after_id max_count : Nat) :
    List (Nat × SignedTransaction) × Nat :=
  let entries := (pool.timeline.filter (fun e => after_id < e.1)).take max_count
  (entries, entries.foldl (fun acc e => Nat.max acc e.1) after_id)

/-- Modelled from the spec: `filter_read_timeline(ids)` returns the subset of
`ids` still live, preserving input order. -/
def CoreMempool.filter_read_timeline (pool : CoreMempool) (ids : List Nat) :
    List (Nat × SignedTransaction) :=
  ids.filterMap (fun i =>
    (pool.timeline.find? (fun e => e.1 = i)).map (fun e => (i, e.2)))

/-- The spec-modelled timeline operations packaged for the scheduler. -/
def specTimelineOps : TimelineOps CoreMempool :=
  ⟨CoreMempool.filter_read_timeline, CoreMempool.read_timeline⟩

/-- Modelled from the spec: timeline ids come from a monotonic counter
starting above the initial peer watermark 0 (§4.2, scenario S3), so every
live entry's id is positive. -/
def CoreMempool.wf (pool : CoreMempool) : Prop :=
  ∀ e ∈ pool.timeline, 0 < e.1

/-- A concrete ingress environment over a counter pool: every account lookup
succeeds, the validator accepts, and `add_txn` reports a full pool. -/
def envPoolFull : IngressEnv Nat :=
  ⟨fun s => if s = 0 then some 0 else some 5,
   fun _ => some ⟨none, 1, ⟨0⟩⟩,
   fun m _ _ _ _ _ _ => (MempoolStatus.new .MempoolIsFull, m + 1)⟩

/-- A concrete ingress environment whose validator capability always
returns `Err`. -/
def envValidatorErr : IngressEnv Nat :=
  ⟨fun _ => some 0, fun _ => none,
   fun m _ _ _ _ _ _ => (MempoolStatus.new .Accepted, m + 1)⟩

/-- A concrete two-entry timeline with ids 1 and 2. -/
def poolAB : CoreMempool := ⟨[(1, ⟨0, 0, 9⟩), (2, ⟨1, 0, 9⟩)]⟩

/-- The same broadcast inputs with the network send forced to succeed. -/
def with_send_ok {P : Type} (env : BroadcastEnv P) : BroadcastEnv P :=
  ⟨env.is_picked_peer, env.peer_state, env.pool, env.shared_mempool_batch_size, true⟩

/-- Concrete broadcast inputs: picked, alive, in backoff mode, no retries. -/
def envBackoffMode : BroadcastEnv CoreMempool :=
  ⟨true, ⟨true, 0, ⟨[], true⟩⟩, poolAB, 2, true⟩

/-- Concrete broadcast inputs: picked, alive, not in backoff mode, retry id 2,
batch size 2, send succeeding. -/
def envRetry : BroadcastEnv CoreMempool :=
  ⟨true, ⟨true, 0, ⟨[2], false⟩⟩, poolAB, 2, true⟩

/-- Concrete broadcast inputs like `envRetry` but with the send failing. -/
def envRetryFail : BroadcastEnv CoreMempool :=
  ⟨true, ⟨true, 0, ⟨[2], false⟩⟩, poolAB, 2, false⟩

/-- Concrete broadcast inputs for a peer that is not picked. -/
def envNotPicked : BroadcastEnv CoreMempool :=
  ⟨false, ⟨true, 0, ⟨[], false⟩⟩, poolAB, 2, true⟩

end SharedMempool

namespace SharedMempool

theorem gen_ack_loop_backoff (rs : List SubmissionStatusBundle) : ∀ idx b,
    (gen_ack_loop idx b rs).2 =
      (b || rs.any (fun r => r.2.1.code = MempoolStatusCode.MempoolIsFull)) := by
  induction rs with
  | nil => intro idx b; simp [gen_ack_loop]
  | cons r rest ih => intro idx b; simp [gen_ack_loop, ih, Bool.or_assoc]

theorem gen_ack_loop_mem (rs : List SubmissionStatusBundle) : ∀ idx b i,
    i ∈ (gen_ack_loop idx b rs).1 ↔
      ∃ j st, rs.get? j = some st ∧ i = idx + j ∧ is_txn_retryable st.2 = true := by
  induction rs with
  | nil => intro idx b i; simp [gen_ack_loop]
  | cons r rest ih =>
    intro idx b i
    simp only [gen_ack_loop]
    cases hr : is_txn_retryable r.2 with
    | false =>
      simp only [Bool.false_eq_true, if_false, ih]
      constructor
      · rintro ⟨j, st, hget, hi, hret⟩
        exact ⟨j + 1, st, by simpa using hget, by omega, hret⟩
      · rintro ⟨j, st, hget, hi, hret⟩
        cases j with
        | zero =>
          simp only [List.get?_cons_zero, Option.some.injEq] at hget
          rw [← hget] at hret
          rw [hr] at hret
          exact absurd hret (by simp)
        | succ k => exact ⟨k, st, by simpa using hget, by omega, hret⟩
    | true =>
      simp only [if_true, List.mem_cons, ih]
      constructor
      · rintro (hi | ⟨j, st, hget, hi, hret⟩)
        · exact ⟨0, r, by simp, by omega, hr⟩
        · exact ⟨j + 1, st, by simpa using hget, by omega, hret⟩
      · rintro ⟨j, st, hget, hi, hret⟩
        cases j with
        | zero =>
          left
          omega
        | succ k => exact Or.inr ⟨k, st, by simpa using hget, by omega, hret⟩

theorem gen_ack_response_retry_txns (request_id : List Nat)
    (results : List SubmissionStatusBundle) (i : Nat) :
    i ∈ (gen_ack_response request_id results).retry_txns ↔
      ∃ st, results.get? i = some st ∧ is_txn_retryable st.2 = true := by
  have h := gen_ack_loop_mem results 0 false i
  simp only [gen_ack_response, MempoolSyncMsg.retry_txns]
  rw [h]
  constructor
  · rintro ⟨j, st, hget, hi, hret⟩
    exact ⟨st, by rwa [show i = j by omega], hret⟩
  · rintro ⟨st, hget, hret⟩
    exact ⟨i, st, hget, by omega, hret⟩

/-- C6: `gen_ack_response` marks a transaction retry-requested exactly when
its `MempoolStatusCode` is `TooManyTransactions` or `MempoolIsFull`, and sets
the response's `backoff` flag exactly when some result is `MempoolIsFull`. -/
theorem C6_ack_retry_and_backoff (request_id : List Nat)
    (results : List SubmissionStatusBundle) :
    (∀ i, i ∈ (gen_ack_response request_id results).retry_txns ↔
      ∃ st, results.get? i = some st ∧
        (st.2.1.code = MempoolStatusCode.TooManyTransactions ∨
         st.2.1.code = MempoolStatusCode.MempoolIsFull)) ∧
    ((gen_ack_response request_id results).backoff = true ↔
      ∃ r ∈ results, r.2.1.code = MempoolStatusCode.MempoolIsFull) := by
  constructor
  · intro i
    rw [gen_ack_response_retry_txns]
    constructor
    · rintro ⟨st, hget, hret⟩
      refine ⟨st, hget, ?_⟩
      simpa [is_txn_retryable] using hret
    · rintro ⟨st, hget, hcode⟩
      refine ⟨st, hget, ?_⟩
      simpa [is_txn_retryable] using hcode
  · have h := gen_ack_loop_backoff results 0 false
    simp only [gen_ack_response, MempoolSyncMsg.backoff]
    rw [h]
    simp [List.any_eq_true]

theorem sequence_prefilter_length (db : Nat → Option Nat)
    (transactions : List SignedTransaction) :
    (sequence_prefilter db transactions).1.length +
      (sequence_prefilter db transactions).2.length = transactions.length := by
  induction transactions with
  | nil => simp [sequence_prefilter]
  | cons t rest ih =>
    simp only [sequence_prefilter]
    cases db t.sender with
    | none => simp only [List.length_cons, List.length]; omega
    | some n =>
      by_cases h : n ≤ t.sequence_number <;>
        simp only [h, if_true, if_false, List.length_cons, List.length] <;> omega

theorem sequence_prefilter_cons_err {db : Nat → Option Nat}
    {t : SignedTransaction} (rest : List SignedTransaction)
    (hdb : db t.sender = none) :
    sequence_prefilter db (t :: rest) =
      ((t, (MempoolStatus.new .VmError, some .RESOURCE_DOES_NOT_EXIST)) ::
          (sequence_prefilter db rest).1,
        (sequence_prefilter db rest).2) := by
  simp [sequence_prefilter, hdb]

theorem sequence_prefilter_cons_keep {db : Nat → Option Nat}
    {t : SignedTransaction} {n : Nat} (rest : List SignedTransaction)
    (hdb : db t.sender = some n) (h : n ≤ t.sequence_number) :
    sequence_prefilter db (t :: rest) =
      ((sequence_prefilter db rest).1, (t, n) :: (sequence_prefilter db rest).2) := by
  simp [sequence_prefilter, hdb, h]

theorem sequence_prefilter_cons_old {db : Nat → Option Nat}
    {t : SignedTransaction} {n : Nat} (rest : List SignedTransaction)
    (hdb : db t.sender = some n) (h : ¬n ≤ t.sequence_number) :
    sequence_prefilter db (t :: rest) =
      ((t, (MempoolStatus.new .VmError, some .SEQUENCE_NUMBER_TOO_OLD)) ::
          (sequence_prefilter db rest).1,
        (sequence_prefilter db rest).2) := by
  simp [sequence_prefilter, hdb, h]

theorem sequence_prefilter_kept_mem (db : Nat → Option Nat)
    (transactions : List SignedTransaction) :
    ∀ p ∈ (sequence_prefilter db transactions).2, p.1 ∈ transactions := by
  induction transactions with
  | nil => simp [sequence_prefilter]
  | cons t rest ih =>
    intro p hp
    cases hdb : db t.sender with
    | none =>
      rw [sequence_prefilter_cons_err rest hdb] at hp
      exact List.mem_cons_of_mem t (ih p hp)
    | some n =>
      by_cases h : n ≤ t.sequence_number
      · rw [sequence_prefilter_cons_keep rest hdb h] at hp
        rcases List.mem_cons.1 hp with h0 | h0
        · rw [h0]; exact List.mem_cons_self t rest
        · exact List.mem_cons_of_mem t (ih p h0)
      · rw [sequence_prefilter_cons_old rest hdb h] at hp
        exact List.mem_cons_of_mem t (ih p hp)

theorem validate_and_insert_cons_err {M : Type} {env : IngressEnv M}
    {timeline_state : TimelineState} {m : M} {t : SignedTransaction} {sq : Nat}
    (rest : List (SignedTransaction × Nat))
    (hv : env.validate_transaction t = none) :
    validate_and_insert env timeline_state m ((t, sq) :: rest) =
      validate_and_insert env timeline_state m rest := by
  simp [validate_and_insert, hv]

theorem validate_and_insert_cons_vmstatus {M : Type} {env : IngressEnv M}
    {timeline_state : TimelineState} {m : M} {t : SignedTransaction} {sq : Nat}
    {vr : VMValidatorResult} {vs : DiscardedVMStatus}
    (rest : List (SignedTransaction × Nat))
    (hv : env.validate_transaction t = some vr) (hs : vr.status = some vs) :
    validate_and_insert env timeline_state m ((t, sq) :: rest) =
      ((t, (MempoolStatus.new .VmError, some vs)) ::
          (validate_and_insert env timeline_state m rest).1,
        (validate_and_insert env timeline_state m rest).2) := by
  simp [validate_and_insert, hv, hs]

theorem validate_and_insert_cons_ok {M : Type} {env : IngressEnv M}
    {timeline_state : TimelineState} {m : M} {t : SignedTransaction} {sq : Nat}
    {vr : VMValidatorResult} (rest : List (SignedTransaction × Nat))
    (hv : env.validate_transaction t = some vr) (hs : vr.status = none) :
    validate_and_insert env timeline_state m ((t, sq) :: rest) =
      ((t, ((env.add_txn m t t.max_gas_amount vr.score sq timeline_state
            vr.governance_role).1, none)) ::
          (validate_and_insert env timeline_state
            (env.add_txn m t t.max_gas_amount vr.score sq timeline_state
              vr.governance_role).2 rest).1,
        (validate_and_insert env timeline_state
          (env.add_txn m t t.max_gas_amount vr.score sq timeline_state
            vr.governance_role).2 rest).2) := by
  simp [validate_and_insert, hv, hs]

theorem validate_and_insert_length_le {M : Type} (env : IngressEnv M)
    (timeline_state : TimelineState) :
    ∀ kept (m : M),
      (validate_and_insert env timeline_state m kept).1.length ≤ kept.length := by
  intro kept
  induction kept with
  | nil => intro m; simp [validate_and_insert]
  | cons p rest ih =>
    intro m
    obtain ⟨transaction, sequence_number⟩ := p
    cases hv : env.validate_transaction transaction with
    | none =>
      rw [validate_and_insert_cons_err rest hv]
      calc (validate_and_insert env timeline_state m rest).1.length
          ≤ rest.length := ih m
        _ ≤ (rest.length + 1) := Nat.le_succ _
    | some validation_result =>
      cases hs : validation_result.status with
      | none =>
        rw [validate_and_insert_cons_ok rest hv hs]
        simpa using ih _
      | some vs =>
        rw [validate_and_insert_cons_vmstatus rest hv hs]
        simpa using ih m

theorem validate_and_insert_length_eq {M : Type} (env : IngressEnv M)
    (timeline_state : TimelineState) :
    ∀ kept (m : M), (∀ p ∈ kept, (env.validate_transaction p.1).isSome = true) →
      (validate_and_insert env timeline_state m kept).1.length = kept.length := by
  intro kept
  induction kept with
  | nil => intro m _; simp [validate_and_insert]
  | cons p rest ih =>
    intro m hok
    obtain ⟨transaction, sequence_number⟩ := p
    have hhead : (env.validate_transaction transaction).isSome = true :=
      hok (transaction, sequence_number) (List.mem_cons_self _ _)
    have htail : ∀ q ∈ rest, (env.validate_transaction q.1).isSome = true :=
      fun q hq => hok q (List.mem_cons_of_mem _ hq)
    cases hv : env.validate_transaction transaction with
    | none => rw [hv] at hhead; simp at hhead
    | some validation_result =>
      cases hs : validation_result.status with
      | none =>
        rw [validate_and_insert_cons_ok rest hv hs]
        simpa using ih _ htail
      | some vs =>
        rw [validate_and_insert_cons_vmstatus rest hv hs]
        simpa using ih m htail

theorem process_incoming_length_le {M : Type} (env : IngressEnv M) (m : M)
    (transactions : List SignedTransaction) (timeline_state : TimelineState) :
    (process_incoming_transactions env m transactions timeline_state).1.length ≤
      transactions.length := by
  have h1 := sequence_prefilter_length env.get_account_sequence_number transactions
  have h2 := validate_and_insert_length_le env timeline_state
    (sequence_prefilter env.get_account_sequence_number transactions).2 m
  simp only [process_incoming_transactions, List.length_append]
  omega

/-- C2 counterexample: with a validator capability that returns `Err` for the
single submitted transaction, `process_incoming_transactions` returns no
status at all — the transaction is dropped, not surfaced as `VmError`. -/
theorem C2_counterexample :
    (process_incoming_transactions envValidatorErr 0
        [⟨0, 0, 0⟩] TimelineState.Ready).1.length = 0 ∧
    [(⟨0, 0, 0⟩ : SignedTransaction)].length = 1 := by
  exact ⟨rfl, rfl⟩

/-- C2 (amended): `process_incoming_transactions` returns exactly one per-txn
status for each input transaction provided the validator capability returns
`Ok` for every transaction; a transaction for which it returns `Err` is
silently dropped, contributing no status. -/
theorem C2_statuses_when_validator_ok {M : Type} (env : IngressEnv M) (m : M)
    (transactions : List SignedTransaction) (timeline_state : TimelineState)
    (hok : ∀ t ∈ transactions, (env.validate_transaction t).isSome = true) :
    (process_incoming_transactions env m transactions timeline_state).1.length =
      transactions.length := by
  have h1 := sequence_prefilter_length env.get_account_sequence_number transactions
  have h2 := validate_and_insert_length_eq env timeline_state
    (sequence_prefilter env.get_account_sequence_number transactions).2 m
    (fun p hp => hok p.1
      (sequence_prefilter_kept_mem env.get_account_sequence_number transactions p hp))
  simp only [process_incoming_transactions, List.length_append]
  omega

/-- C1 counterexample: a two-transaction broadcast in which the first
transaction is accepted into a full pool (retryable status) and the second
fails the sequence prefilter.  The prefilter pushes its failure status first,
so the results vector is reordered: the only retry index is 1, yet the
retry-requested transaction is the one at position 0 of the original
broadcast order (position 1 holds the other transaction). -/
theorem C1_counterexample :
    ((gen_ack_response [] (process_incoming_transactions envPoolFull 0
        [⟨0, 5, 9⟩, ⟨1, 0, 9⟩] TimelineState.Ready).1).retry_txns = [1]) ∧
    ((process_incoming_transactions envPoolFull 0
        [⟨0, 5, 9⟩, ⟨1, 0, 9⟩] TimelineState.Ready).1.get? 1 =
      some (⟨0, 5, 9⟩, (MempoolStatus.new .MempoolIsFull, none))) ∧
    ([(⟨0, 5, 9⟩ : SignedTransaction), ⟨1, 0, 9⟩].get? 0 = some ⟨0, 5, 9⟩) ∧
    ([(⟨0, 5, 9⟩ : SignedTransaction), ⟨1, 0, 9⟩].get? 1 ≠ some ⟨0, 5, 9⟩) := by
  refine ⟨rfl, rfl, rfl, by decide⟩

/-- C1 (amended): each index in `retry_txns` is the zero-based position of
the corresponding transaction in the per-txn results vector of
`process_incoming_transactions` — which lists sequence-prefilter failures
first and may therefore differ from the original broadcast order — and every
index is below the number of broadcast transactions, so the indices still
decode through the recorded batch's `timeline_ids` to a subset of that
batch's original timeline ids. -/
theorem C1_ack_indices_decode {M : Type} (env : IngressEnv M) (m : M)
    (transactions : List SignedTransaction) (timeline_state : TimelineState)
    (request_id : List Nat) (batch_timeline_ids : List Nat)
    (hlen : batch_timeline_ids.length = transactions.length) :
    ∀ i ∈ (gen_ack_response request_id
        (process_incoming_transactions env m transactions timeline_state).1).retry_txns,
      (((process_incoming_transactions env m transactions timeline_state).1.get? i).any
          (fun st => is_txn_retryable st.2) = true) ∧
      i < batch_timeline_ids.length ∧
      batch_timeline_ids.getD i 0 ∈ batch_timeline_ids := by
  intro i hi
  rcases (gen_ack_response_retry_txns request_id _ i).1 hi with ⟨st, hget, hret⟩
  have hlt : i < (process_incoming_transactions env m transactions timeline_state).1.length := by
    rcases List.get?_eq_some.1 hget with ⟨h, _⟩
    exact h
  have hle := process_incoming_length_le env m transactions timeline_state
  have hi2 : i < batch_timeline_ids.length := by omega
  refine ⟨by rw [hget]; simpa using hret, hi2, ?_⟩
  have hq : batch_timeline_ids.get? i = some (batch_timeline_ids.get ⟨i, hi2⟩) :=
    List.get?_eq_get hi2
  have hgd : batch_timeline_ids.getD i 0 = batch_timeline_ids.get ⟨i, hi2⟩ := by
    rw [List.getD_eq_getElem?_getD, ← List.get?_eq_getElem?, hq]
    rfl
  rw [hgd]
  exact List.get_mem _ _ _

/-- Witness for C1 (amended) at the concrete reordered broadcast. -/
theorem C1_witness :
    (((process_incoming_transactions envPoolFull 0
        [⟨0, 5, 9⟩, ⟨1, 0, 9⟩] TimelineState.Ready).1.get? 1).any
        (fun st => is_txn_retryable st.2) = true) ∧
    1 < [5, 7].length ∧ [5, 7].getD 1 0 ∈ [5, 7] :=
  C1_ack_indices_decode envPoolFull 0 [⟨0, 5, 9⟩, ⟨1, 0, 9⟩] TimelineState.Ready
    [] [5, 7] (by decide) 1 (by decide)

/-- Witness for C2 (amended) at a concrete two-transaction input. -/
theorem C2_witness :
    (process_incoming_transactions envPoolFull 0
        [⟨0, 5, 9⟩, ⟨1, 0, 9⟩] TimelineState.Ready).1.length =
      [(⟨0, 5, 9⟩ : SignedTransaction), ⟨1, 0, 9⟩].length :=
  C2_statuses_when_validator_ok envPoolFull 0 [⟨0, 5, 9⟩, ⟨1, 0, 9⟩]
    TimelineState.Ready (by decide)

/-- C7: on `GetBlockRequest(max_size, exclude_txns)` the consensus handler,
in one pool-lock section, first GCs by the current time and then pulls a
block of size `max(max_size, 1)` from the GC'd pool, excluding exactly the
`(sender, sequence_number)` pointers of `exclude_txns`, and replies with the
resulting transaction list.  Holding over every core-pool implementation
`ops`, the equation pins the handler's call sequence and arguments. -/
theorem C7_get_block_handler {P : Type} (ops : CoreMempoolOps P) (pool : P)
    (curr_time : Nat) (max_block_size : Nat)
    (transactions : List CommittedTransaction) :
    ∃ exclude : Nat × Nat → Bool,
      (∀ ptr, exclude ptr = true ↔
        ∃ txn ∈ transactions, ptr = (txn.sender, txn.sequence_number)) ∧
      process_consensus_request ops pool curr_time
          (ConsensusRequest.GetBlockRequest max_block_size transactions) =
        (ops.gc_by_expiration_time pool curr_time,
         ConsensusResponse.GetBlockResponse
           (ops.get_block (ops.gc_by_expiration_time pool curr_time)
             (Nat.max max_block_size 1) exclude)) := by
  refine ⟨fun ptr =>
    transactions.any (fun txn => ptr = (txn.sender, txn.sequence_number)), ?_, rfl⟩
  intro ptr
  simp [List.any_eq_true]

/-- C8: on a state-sync commit the handler removes each committed
`(sender, sequence)` with `is_rejected = false` in input order, then GCs by
the block timestamp exactly when it is positive, and replies with the
empty-message ACK. -/
theorem C8_state_sync_commit {P : Type} (ops : CoreMempoolOps P) (pool : P)
    (transactions : List CommittedTransaction) (block_timestamp_usecs : Nat) :
    process_state_sync_request ops pool transactions block_timestamp_usecs =
      (if 0 < block_timestamp_usecs then
        ops.gc_by_expiration_time
          (transactions.foldl (fun p transaction =>
            ops.remove_transaction p transaction.sender transaction.sequence_number
              false) pool)
          block_timestamp_usecs
       else
        transactions.foldl (fun p transaction =>
          ops.remove_transaction p transaction.sender transaction.sequence_number
            false) pool,
       ⟨""⟩) := rfl

theorem broadcast_single_peer_assemble {P : Type} (ops : TimelineOps P)
    (env : BroadcastEnv P) (backoff : Bool)
    (hpick : env.is_picked_peer = true)
    (halive : env.peer_state.is_alive = true)
    (hd : (!backoff && env.peer_state.broadcast_info.backoff_mode) = false) :
    broadcast_single_peer ops env backoff =
      (if (bsp_padding ops env).1.isEmpty && (bsp_retry_txns ops env).isEmpty then
        Except.ok (env.peer_state.broadcast_info.backoff_mode, noBroadcastEffects)
      else
        match (ops.read_timeline env.pool 0 1).1.head? with
        | none => Except.error "empty timeline"
        | some earliest =>
          let all_txns := (bsp_retry_txns ops env ++ (bsp_padding ops env).1).take
            env.shared_mempool_batch_size
          let sent := MempoolSyncMsg.BroadcastTransactionsRequest
            (serialize_batch_id ⟨env.peer_state.timeline_id, (bsp_padding ops env).2⟩)
            (all_txns.map (fun e => e.2))
          if env.send_ok then
            Except.ok (env.peer_state.broadcast_info.backoff_mode,
              ⟨some sent,
                some ⟨⟨env.peer_state.timeline_id, (bsp_padding ops env).2⟩,
                  all_txns.map (fun e => e.1), (bsp_padding ops env).2, earliest.1⟩,
                true⟩)
          else
            Except.ok (env.peer_state.broadcast_info.backoff_mode,
              ⟨some sent, none, false⟩)) := by
  simp only [broadcast_single_peer, hpick, halive, hd, if_true, Bool.false_eq_true,
    if_false]

theorem map_take_append_front {α β : Type} (f : α → β) (l1 l2 : List α) (n : Nat) :
    (((l1 ++ l2).take n).map f).take l1.length = (l1.map f).take n := by
  rw [← List.map_take, ← List.map_take, List.take_take,
    List.take_append_of_le_length (Nat.min_le_left _ _)]
  exact congrArg _ (List.take_eq_take.2 (by omega))

/-- C3: a broadcast dispatched as non-backoff against a peer whose stored
`backoff_mode` is `true` (picked and alive) performs no network send and
returns `true`, so `execute_broadcast` schedules the next broadcast for that
peer in backoff mode after `shared_mempool_backoff_interval_ms`. -/
theorem C3_backoff_sticky_drop {P : Type} (ops : TimelineOps P)
    (cfg : BroadcastConfig) (peer now : Nat) (env : BroadcastEnv P)
    (hpick : env.is_picked_peer = true)
    (halive : env.peer_state.is_alive = true)
    (hmode : env.peer_state.broadcast_info.backoff_mode = true) :
    broadcast_single_peer ops env false = Except.ok (true, noBroadcastEffects) ∧
    execute_broadcast ops cfg peer now env false =
      Except.ok (noBroadcastEffects,
        ⟨now + cfg.shared_mempool_backoff_interval_ms, peer, true⟩) := by
  have h1 : broadcast_single_peer ops env false =
      Except.ok (true, noBroadcastEffects) := by
    simp [broadcast_single_peer, hpick, halive, hmode]
  exact ⟨h1, by simp [execute_broadcast, h1]⟩

/-- Witness for C3 at a concrete backoff-mode peer. -/
theorem C3_witness :
    broadcast_single_peer specTimelineOps envBackoffMode false =
      Except.ok (true, noBroadcastEffects) ∧
    execute_broadcast specTimelineOps ⟨50, 10⟩ 7 100 envBackoffMode false =
      Except.ok (noBroadcastEffects, ⟨150, 7, true⟩) :=
  C3_backoff_sticky_drop specTimelineOps ⟨50, 10⟩ 7 100 envBackoffMode rfl rfl rfl

/-- C4: in an invocation that reaches batch assembly (picked, alive, not
dropped by the backoff check), the batch is the retry transactions from
`filter_read_timeline` followed by the fresh `read_timeline` padding (read
only when the retries number fewer than `shared_mempool_batch_size`, see
`bsp_padding`), truncated to at most `shared_mempool_batch_size`
transactions with the retried ones first; and when both parts are empty the
function returns the stored backoff flag without sending. -/
theorem C4_batch_assembly {P : Type} (ops : TimelineOps P) (env : BroadcastEnv P)
    (backoff : Bool)
    (hpick : env.is_picked_peer = true)
    (halive : env.peer_state.is_alive = true)
    (hd : (!backoff && env.peer_state.broadcast_info.backoff_mode) = false) :
    ((bsp_retry_txns ops env).isEmpty = true →
      (bsp_padding ops env).1.isEmpty = true →
      broadcast_single_peer ops env backoff =
        Except.ok (env.peer_state.broadcast_info.backoff_mode, noBroadcastEffects)) ∧
    (∀ r eff msg, broadcast_single_peer ops env backoff = Except.ok (r, eff) →
      eff.sent_request = some msg →
      msg = MempoolSyncMsg.BroadcastTransactionsRequest
          (serialize_batch_id ⟨env.peer_state.timeline_id, (bsp_padding ops env).2⟩)
          (((bsp_retry_txns ops env ++ (bsp_padding ops env).1).take
            env.shared_mempool_batch_size).map (fun e => e.2)) ∧
        msg.transactions.length ≤ env.shared_mempool_batch_size ∧
        msg.transactions.take (bsp_retry_txns ops env).length =
          ((bsp_retry_txns ops env).map (fun e => e.2)).take
            env.shared_mempool_batch_size) := by
  rw [broadcast_single_peer_assemble ops env backoff hpick halive hd]
  constructor
  · intro h1 h2
    simp [h1, h2]
  · intro r eff msg heq hsent
    by_cases hempty : ((bsp_padding ops env).1.isEmpty &&
        (bsp_retry_txns ops env).isEmpty) = true
    · rw [if_pos hempty] at heq
      cases heq
      cases hsent
    · rw [if_neg hempty] at heq
      cases hhead : (ops.read_timeline env.pool 0 1).1.head? with
      | none => simp [hhead] at heq
      | some earliest =>
        simp only [hhead] at heq
        have hmsg : msg = MempoolSyncMsg.BroadcastTransactionsRequest
            (serialize_batch_id ⟨env.peer_state.timeline_id, (bsp_padding ops env).2⟩)
            (((bsp_retry_txns ops env ++ (bsp_padding ops env).1).take
              env.shared_mempool_batch_size).map (fun e => e.2)) := by
          by_cases hsend : env.send_ok = true
          · rw [if_pos hsend] at heq
            cases heq
            cases hsent
            rfl
          · rw [if_neg hsend] at heq
            cases heq
            cases hsent
            rfl
        refine ⟨hmsg, ?_, ?_⟩
        · rw [hmsg]
          simp only [MempoolSyncMsg.transactions, List.length_map, List.length_take]
          exact Nat.min_le_left _ _
        · rw [hmsg]
          simp only [MempoolSyncMsg.transactions]
          exact map_take_append_front _ _ _ _

/-- Witness for C4 at the concrete retry-and-pad broadcast: the batch is
`[txn with id 2 (retried), txn with id 1 (fresh)]` under batch id `(0, 1)`. -/
theorem C4_witness :
    (MempoolSyncMsg.BroadcastTransactionsRequest (serialize_batch_id ⟨0, 1⟩)
        [⟨1, 0, 9⟩, ⟨0, 0, 9⟩] : MempoolSyncMsg) =
      MempoolSyncMsg.BroadcastTransactionsRequest (serialize_batch_id ⟨0, 1⟩)
        [⟨1, 0, 9⟩, ⟨0, 0, 9⟩] ∧
    (MempoolSyncMsg.BroadcastTransactionsRequest (serialize_batch_id ⟨0, 1⟩)
        [(⟨1, 0, 9⟩ : SignedTransaction), ⟨0, 0, 9⟩]).transactions.length ≤ 2 ∧
    (MempoolSyncMsg.BroadcastTransactionsRequest (serialize_batch_id ⟨0, 1⟩)
        [(⟨1, 0, 9⟩ : SignedTransaction), ⟨0, 0, 9⟩]).transactions.take 1 =
      [⟨1, 0, 9⟩] :=
  (C4_batch_assembly specTimelineOps envRetry false rfl rfl rfl).2 false
    ⟨some (MempoolSyncMsg.BroadcastTransactionsRequest (serialize_batch_id ⟨0, 1⟩)
        [⟨1, 0, 9⟩, ⟨0, 0, 9⟩]),
      some ⟨⟨0, 1⟩, [2, 1], 1, 1⟩, true⟩
    (MempoolSyncMsg.BroadcastTransactionsRequest (serialize_batch_id ⟨0, 1⟩)
        [⟨1, 0, 9⟩, ⟨0, 0, 9⟩]) rfl rfl

/-- C5: when the network send fails, `broadcast_single_peer` performs no
`update_peer_broadcast` (so the peer's `timeline_id` is not advanced and no
batch is recorded in `sent_batches`) and no subscriber notification, still
returning the stored backoff flag; rerunning on the same peer state and pool
with the send succeeding hands the very same request — same transactions,
same serialized batch id — to the network. -/
theorem C5_transport_error_frame {P : Type} (ops : TimelineOps P)
    (env : BroadcastEnv P) (backoff : Bool)
    (hpick : env.is_picked_peer = true)
    (halive : env.peer_state.is_alive = true)
    (hd : (!backoff && env.peer_state.broadcast_info.backoff_mode) = false)
    (hfail : env.send_ok = false) :
    ∀ r eff, broadcast_single_peer ops env backoff = Except.ok (r, eff) →
      eff.recorded_broadcast = none ∧ eff.notified_broadcast = false ∧
      r = env.peer_state.broadcast_info.backoff_mode ∧
      Except.map (fun q => (q.1, q.2.sent_request))
          (broadcast_single_peer ops (with_send_ok env) backoff) =
        Except.ok (r, eff.sent_request) := by
  intro r eff heq
  rw [broadcast_single_peer_assemble ops env backoff hpick halive hd] at heq
  have hpick2 : (with_send_ok env).is_picked_peer = true := hpick
  have halive2 : (with_send_ok env).peer_state.is_alive = true := halive
  have hd2 : (!backoff && (with_send_ok env).peer_state.broadcast_info.backoff_mode)
      = false := hd
  rw [broadcast_single_peer_assemble ops (with_send_ok env) backoff hpick2 halive2 hd2]
  have hpad : bsp_padding ops (with_send_ok env) = bsp_padding ops env := rfl
  have hretry : bsp_retry_txns ops (with_send_ok env) = bsp_retry_txns ops env := rfl
  have hpool : (with_send_ok env).pool = env.pool := rfl
  have hps : (with_send_ok env).peer_state = env.peer_state := rfl
  have hbs : (with_send_ok env).shared_mempool_batch_size =
      env.shared_mempool_batch_size := rfl
  have hsend : (with_send_ok env).send_ok = true := rfl
  rw [hpad, hretry, hpool, hps, hbs, hsend]
  by_cases hempty : ((bsp_padding ops env).1.isEmpty &&
      (bsp_retry_txns ops env).isEmpty) = true
  · rw [if_pos hempty] at heq
    cases heq
    simp [hempty, Except.map, noBroadcastEffects]
  · rw [if_neg hempty] at heq
    rw [if_neg hempty]
    cases hhead : (ops.read_timeline env.pool 0 1).1.head? with
    | none => simp [hhead] at heq
    | some earliest =>
      simp only [hhead] at heq
      simp only [hfail, Bool.false_eq_true, if_false] at heq
      cases heq
      simp [hhead, Except.map]

/-- Witness for C5 at the concrete failing send: nothing recorded, nothing
notified, and the succeeding rerun hands over the same request. -/
theorem C5_witness :
    (none : Option UpdatePeerBroadcastArgs) = none ∧ false = false ∧
    false = false ∧
    (Except.ok (false, some (MempoolSyncMsg.BroadcastTransactionsRequest
        (serialize_batch_id ⟨0, 1⟩) [⟨1, 0, 9⟩, ⟨0, 0, 9⟩])) :
      Except String (Bool × Option MempoolSyncMsg)) =
      Except.ok (false, some (MempoolSyncMsg.BroadcastTransactionsRequest
        (serialize_batch_id ⟨0, 1⟩) [⟨1, 0, 9⟩, ⟨0, 0, 9⟩])) :=
  C5_transport_error_frame specTimelineOps envRetryFail false rfl rfl rfl rfl false
    ⟨some (MempoolSyncMsg.BroadcastTransactionsRequest
      (serialize_batch_id ⟨0, 1⟩) [⟨1, 0, 9⟩, ⟨0, 0, 9⟩]), none, false⟩ rfl

theorem spec_read_earliest_ne_nil (pool : CoreMempool)
    (h : ∃ e ∈ pool.timeline, 0 < e.1) :
    (pool.read_timeline 0 1).1 ≠ [] := by
  rcases h with ⟨e, he, hpos⟩
  simp only [CoreMempool.read_timeline]
  intro hnil
  rcases List.take_eq_nil_iff.1 hnil with h1 | h1
  · exact absurd h1 (by omega)
  · have hmem : e ∈ pool.timeline.filter (fun x => 0 < x.1) :=
      List.mem_filter.2 ⟨he, by simpa using hpos⟩
    rw [h1] at hmem
    exact absurd hmem (List.not_mem_nil e)

theorem bsp_retry_gives_entry (env : BroadcastEnv CoreMempool)
    (hwf : env.pool.wf) (h : bsp_retry_txns specTimelineOps env ≠ []) :
    ∃ e ∈ env.pool.timeline, 0 < e.1 := by
  simp only [bsp_retry_txns, specTimelineOps, CoreMempool.filter_read_timeline] at h
  rcases List.exists_mem_of_ne_nil _ h with ⟨x, hx⟩
  rcases List.mem_filterMap.1 hx with ⟨i, _, hfi⟩
  rcases Option.map_eq_some'.1 hfi with ⟨e0, hfind, _⟩
  have he0 : e0 ∈ env.pool.timeline := List.mem_of_find?_eq_some hfind
  exact ⟨e0, he0, hwf e0 he0⟩

theorem bsp_padding_gives_entry (env : BroadcastEnv CoreMempool)
    (h : (bsp_padding specTimelineOps env).1 ≠ []) :
    ∃ e ∈ env.pool.timeline, 0 < e.1 := by
  simp only [bsp_padding] at h
  by_cases hlen : (bsp_retry_txns specTimelineOps env).length <
      env.shared_mempool_batch_size
  · rw [if_pos hlen] at h
    simp only [specTimelineOps, CoreMempool.read_timeline] at h
    rcases List.exists_mem_of_ne_nil _ h with ⟨x, hx⟩
    have hx2 := List.mem_filter.1 (List.mem_of_mem_take hx)
    refine ⟨x, hx2.1, ?_⟩
    have := hx2.2
    simp only [decide_eq_true_eq] at this
    omega
  · rw [if_neg hlen] at h
    exact absurd rfl h

/-- C9: over the spec-modelled core pool (timeline ids positive, as assigned
by the monotonic counter), whenever `broadcast_single_peer` assembles a
non-empty batch the `read_timeline(0, 1)` result is non-empty, so the
`expect("empty timeline")` panic is unreachable: the function always returns
a value. -/
theorem C9_earliest_nonpanic (env : BroadcastEnv CoreMempool) (backoff : Bool)
    (hwf : env.pool.wf) :
    (broadcast_single_peer specTimelineOps env backoff).isOk = true := by
  cases hpick : env.is_picked_peer with
  | false => simp [broadcast_single_peer, hpick, Except.isOk, Except.toBool]
  | true =>
    cases halive : env.peer_state.is_alive with
    | false => simp [broadcast_single_peer, hpick, halive, Except.isOk, Except.toBool]
    | true =>
      cases hd : (!backoff && env.peer_state.broadcast_info.backoff_mode) with
      | true => simp [broadcast_single_peer, hpick, halive, hd, Except.isOk, Except.toBool]
      | false =>
        rw [broadcast_single_peer_assemble specTimelineOps env backoff hpick halive hd]
        by_cases hempty : ((bsp_padding specTimelineOps env).1.isEmpty &&
            (bsp_retry_txns specTimelineOps env).isEmpty) = true
        · simp [hempty, Except.isOk, Except.toBool]
        · rw [if_neg hempty]
          have hor : (bsp_padding specTimelineOps env).1.isEmpty = false ∨
              (bsp_retry_txns specTimelineOps env).isEmpty = false := by
            cases h1 : (bsp_padding specTimelineOps env).1.isEmpty with
            | false => exact Or.inl rfl
            | true =>
              cases h2 : (bsp_retry_txns specTimelineOps env).isEmpty with
              | false => exact Or.inr rfl
              | true => exact absurd (by rw [h1, h2]; rfl) hempty
          have hex : ∃ e ∈ env.pool.timeline, 0 < e.1 := by
            rcases hor with h1 | h1
            · refine bsp_padding_gives_entry env (fun hl => ?_)
              rw [hl] at h1
              simp at h1
            · refine bsp_retry_gives_entry env hwf (fun hl => ?_)
              rw [hl] at h1
              simp at h1
          have hne := spec_read_earliest_ne_nil env.pool hex
          cases hh : (specTimelineOps.read_timeline env.pool 0 1).1.head? with
          | none =>
            have : (specTimelineOps.read_timeline env.pool 0 1).1 = [] :=
              List.head?_eq_none_iff.1 hh
            exact absurd this hne
          | some e =>
            simp only [hh]
            by_cases hs : env.send_ok = true <;>
              simp [hs, Except.isOk, Except.toBool]

/-- Witness for C9 at the concrete retry-and-pad broadcast over a positive-id
timeline. -/
theorem C9_witness :
    (broadcast_single_peer specTimelineOps envRetry false).isOk = true :=
  C9_earliest_nonpanic envRetry false (by
    show ∀ e ∈ poolAB.timeline, 0 < e.1
    decide)

/-- C10: every completed invocation of `execute_broadcast` schedules exactly
one follow-up broadcast for the same peer — whatever the picked, alive,
empty-batch or send-failure outcome encoded in the returned result — due
after `shared_mempool_backoff_interval_ms` when `broadcast_single_peer`
returned `true` and after `shared_mempool_tick_interval_ms` otherwise, so a
peer's broadcast loop never terminates. -/
theorem C10_reschedule {P : Type} (ops : TimelineOps P) (cfg : BroadcastConfig)
    (peer now : Nat) (env : BroadcastEnv P) (backoff : Bool)
    (res : Bool × BroadcastEffects)
    (h : broadcast_single_peer ops env backoff = Except.ok res) :
    execute_broadcast ops cfg peer now env backoff =
      Except.ok (res.2,
        ⟨now + (if res.1 then cfg.shared_mempool_backoff_interval_ms
          else cfg.shared_mempool_tick_interval_ms), peer, res.1⟩) := by
  simp [execute_broadcast, h]

/-- Witness for C10 at a peer that is not even picked: the loop still
reschedules, at the tick interval. -/
theorem C10_witness :
    execute_broadcast specTimelineOps ⟨50, 10⟩ 7 100 envNotPicked false =
      Except.ok (noBroadcastEffects, ⟨110, 7, false⟩) :=
  C10_reschedule specTimelineOps ⟨50, 10⟩ 7 100 envNotPicked false
    (false, noBroadcastEffects) rfl

end SharedMempool
